import Mathlib

/-!
Verification development for the multi-provider brand-analysis
orchestration pipeline of `src/services/geminiService.ts` (types from
`src/utils/exportUtils.ts` / `types.ts`).

The TypeScript source is shallowly embedded: network calls and
`JSON.parse` results are inputs (a "wire"/behavior oracle supplies the
outcome of each call), thrown JavaScript values are an explicit error
type, and the concurrent per-prompt provider fan-out is modelled by its
provider-order linearization (each work unit's own event subsequence and
the assembled result ordering are unaffected by the interleaving).
-/

/-- JS-style substring test: `strContain pat l` is true iff `pat` occurs
contiguously inside `l` (models `String.prototype.includes`). -/
def strContain (pat : List Char) : List Char → Bool
  | [] => pat.isEmpty
  | c :: rest => pat.isPrefixOf (c :: rest) || strContain pat rest

/-- `includes` on strings, as used by `isRetryableError` and the Gemini
catch block. -/
def strIncludes (s pat : String) : Bool := strContain pat.toList s.toList

/-- JS truthiness of an optional string: `undefined` and `""` are falsy. -/
def optTruthy : Option String → Bool
  | none => false
  | some s => s != ""

/-- The `Provider` union type of `types.ts`. -/
inductive Provider where
  | gemini
  | openai
  | openaiWebsearch
  | perplexity
deriving DecidableEq

/-- The wire key of each provider (the TS string literal). -/
def providerKey : Provider → String
  | .gemini => "gemini"
  | .openai => "openai"
  | .openaiWebsearch => "openai-websearch"
  | .perplexity => "perplexity"

/-- `providerBaseNames` from `geminiService.ts`. -/
def providerBaseNames : Provider → String
  | .gemini => "Google Gemini"
  | .openai => "OpenAI"
  | .openaiWebsearch => "OpenAI Web Search"
  | .perplexity => "Perplexity"

/-- One entry of the secondary analysis output (`BrandAnalysis` in
`types.ts`); `sentiment` is the TS string union kept as a string. -/
structure BrandAnalysis where
  brandName : String
  mentions : Nat
  sentiment : String
deriving DecidableEq

/-- `AdditionalQuestionAnswer` from `types.ts`. -/
structure AdditionalQuestionAnswer where
  question : String
  answer : String
deriving DecidableEq

/-- `Citation` from `types.ts`: 1-based index, url, optional title. -/
structure Citation where
  index : Nat
  url : String
  title : Option String
deriving DecidableEq

/-- Token usage pair as in `ProviderResponse.tokenUsage`. -/
structure TokenUsage where
  inputTokens : Nat
  outputTokens : Nat
deriving DecidableEq

/-- `ProviderResponse` from `types.ts` (the per-work-unit result record,
called `ProviderResult` in the specification). -/
structure ProviderResponse where
  provider : Provider
  response : String
  brandAnalyses : List BrandAnalysis
  additionalAnswers : List AdditionalQuestionAnswer
  rawResponse : Option String
  error : Option String
  citations : Option (List Citation)
  tokenUsage : Option TokenUsage
  analysisTokenUsage : Option TokenUsage
deriving DecidableEq

/-- `AnalysisResult` from `types.ts`: one prompt with one response slot
per selected provider. -/
structure AnalysisResult where
  prompt : String
  providerResponses : List ProviderResponse
deriving DecidableEq

/-- Task lifecycle status, from the `Task` interface in `types.ts`. -/
inductive TaskStatus where
  | pending
  | inProgress
  | completed
  | error
deriving DecidableEq

/-- `ApiKeys` from `types.ts` (the storage-service keys are irrelevant to
the analysis pipeline and omitted). -/
structure ApiKeys where
  gemini : Option String
  openai : Option String
  perplexity : Option String

/-- `AppConfig` from `types.ts`, restricted to the fields the analysis
service reads; `models` is the partial record `Partial<Record<Provider,
string>>` and `broadMatch` the optional boolean coerced to its
truthiness. -/
structure AppConfig where
  providers : List Provider
  apiKeys : ApiKeys
  models : Provider → Option String
  clientName : String
  competitors : List String
  prompts : List String
  additionalQuestions : List String
  broadMatch : Bool

/-- `LlmClients` from `types.ts`: the Gemini SDK handle is identified
with the key it wraps; `none` stands for `null`/`undefined`. -/
structure LlmClients where
  gemini : Option String
  openai : Option String
  perplexity : Option String
deriving DecidableEq

/-- A thrown JavaScript `Error` value: `TypeError` (fetch network
failures), the custom `APIError` carrying an HTTP status, or a plain
`Error`. -/
inductive JsError where
  | typeError (message : String)
  | apiError (message : String) (status : Nat)
  | plain (message : String)
deriving DecidableEq

/-- The `.message` property of an error. -/
def JsError.message : JsError → String
  | .typeError m => m
  | .apiError m _ => m
  | .plain m => m

/-- An arbitrary thrown JavaScript value: an `Error` instance, or a
non-`Error` value whose `String(v)` rendering is recorded. -/
inductive Thrown where
  | err (e : JsError)
  | nonError (s : String)
deriving DecidableEq

/-- The normalization `e instanceof Error ? e : new Error(String(e))`
performed by `retryWithBackoff` (line 46 of `geminiService.ts`). -/
def toError : Thrown → JsError
  | .err e => e
  | .nonError s => .plain s

/-- `JSON.stringify(e, Object.getOwnPropertyNames(e), 2)` as used on line
545 to dump an exception into `rawResponse`; modelled as a canonical
JSON-ish rendering of the error value. -/
def serializeError : JsError → String
  | .typeError m =>
      "\x7b \"name\": \"TypeError\", \"message\": \"" ++ m ++ "\" \x7d"
  | .apiError m s =>
      "\x7b \"name\": \"APIError\", \"message\": \"" ++ m ++
        "\", \"status\": " ++ toString s ++ " \x7d"
  | .plain m =>
      "\x7b \"name\": \"Error\", \"message\": \"" ++ m ++ "\" \x7d"

/-- The message heuristic on line 31: `error.message` is a string that
includes `'rate limit'` or `'503'`. A thrown non-`Error` string value has
no `.message` property, so it never satisfies the heuristic. -/
def msgHeuristic (m : String) : Bool :=
  strIncludes m "rate limit" || strIncludes m "503"

/-- `isRetryableError` (lines 22-35): a `TypeError` with message
`'Failed to fetch'` is retryable; an `APIError` is retryable iff its
status is 429 or in 500..504 (and the message heuristic is NOT consulted
for `APIError`s, the branch returns); any other error falls through to
the message heuristic. -/
def isRetryableError : Thrown → Bool
  | .err (.typeError m) => m == "Failed to fetch" || msgHeuristic m
  | .err (.apiError _ status) => status == 429 || (500 ≤ status && status ≤ 504)
  | .err (.plain m) => msgHeuristic m
  | .nonError _ => false

/-- Observable side effects of the retry engine: the `onRetry` callback
invocation (with the normalized error and the 1-based attempt number) and
the backoff wait, in order. -/
inductive REvent where
  | onRetry (e : JsError) (attempt : Nat)
  | wait (ms : Nat)
deriving DecidableEq

/-- Loop body of `retryWithBackoff` (lines 42-55). `attempt` is the
1-based attempt counter of the `for` loop; `remaining` is
`retries - (attempt - 1)`, the number of retries still allowed, so the
loop guard `attempt <= options.retries` is `remaining ≥ 1`. `outcomes k`
is what the wrapped `fn()` does on attempt `k`: resolve with a value or
reject with a thrown value. Returns the settled result together with the
ordered trace of observable events. -/
def retryGo {α : Type} (outcomes : Nat → Except Thrown α) :
    Nat → Nat → Except JsError α × List REvent
  | attempt, 0 =>
    (match outcomes attempt with
     | .ok v => (.ok v, [])
     | .error e => (.error (toError e), []))
  | attempt, r + 1 =>
    (match outcomes attempt with
     | .ok v => (.ok v, [])
     | .error e =>
       if isRetryableError e then
         let rest := retryGo outcomes (attempt + 1) r
         (rest.1,
          .onRetry (toError e) attempt ::
            .wait (1000 * 2 ^ (attempt - 1)) :: rest.2)
       else (.error (toError e), []))

/-- `retryWithBackoff` (lines 37-57): attempt 1 first, `retries` further
attempts allowed, base delay 1000ms doubling each retry. -/
def retryWithBackoff {α : Type} (retries : Nat)
    (outcomes : Nat → Except Thrown α) : Except JsError α × List REvent :=
  retryGo outcomes 1 retries

/-- The retryability predicate exactly as claim C3 words it: a
network-transport failure, or an HTTP response with status 429 or in the
5xx class (500..599). -/
def claimRetryable : Thrown → Bool
  | .err (.typeError m) => m == "Failed to fetch"
  | .err (.apiError _ status) => status == 429 || (500 ≤ status && status ≤ 599)
  | _ => false

/-- The retryability condition as amended for claim C3: like the claim,
but the retryable status band is 429 and 500..504 only (505..599 are NOT
retryable), and any thrown non-`APIError` `Error` whose message contains
`'rate limit'` or `'503'` is additionally retryable. -/
def amendedRetryableSpec (t : Thrown) : Prop :=
  (∃ m, t = Thrown.err (JsError.typeError m) ∧
    (m = "Failed to fetch" ∨ msgHeuristic m = true)) ∨
  (∃ m s, t = Thrown.err (JsError.apiError m s) ∧
    (s = 429 ∨ (500 ≤ s ∧ s ≤ 504))) ∨
  (∃ m, t = Thrown.err (JsError.plain m) ∧ msgHeuristic m = true)

/-- `initializeClients` (lines 61-80): a selected Gemini provider with a
missing (or empty, hence falsy) key throws immediately; the OpenAI and
Perplexity keys are copied into the client record only when present, with
NO throw when they are missing. -/
def initializeClients (config : AppConfig) : Except JsError LlmClients :=
  let geminiStep : Except JsError (Option String) :=
    if config.providers.contains Provider.gemini then
      if optTruthy config.apiKeys.gemini then Except.ok config.apiKeys.gemini
      else Except.error (JsError.plain "Google Gemini API Key is missing.")
    else Except.ok none
  match geminiStep with
  | Except.error e => Except.error e
  | Except.ok g =>
      let o :=
        if (config.providers.contains Provider.openai ||
              config.providers.contains Provider.openaiWebsearch) &&
            optTruthy config.apiKeys.openai then
          config.apiKeys.openai
        else none
      let p :=
        if config.providers.contains Provider.perplexity &&
            optTruthy config.apiKeys.perplexity then
          config.apiKeys.perplexity
        else none
      Except.ok { gemini := g, openai := o, perplexity := p }

/-- The guard of the dispatch `switch` in `runAnalysis` (lines 504-524):
each arm throws when its client handle or its configured model is falsy,
otherwise selects the provider's adapter. -/
def dispatchCheck (clients : LlmClients) (config : AppConfig) :
    Provider → Except JsError Unit
  | .gemini =>
      if clients.gemini.isSome && optTruthy (config.models Provider.gemini) then
        Except.ok ()
      else Except.error (JsError.plain "Gemini client not initialized properly.")
  | .openai =>
      if optTruthy clients.openai && optTruthy (config.models Provider.openai) then
        Except.ok ()
      else Except.error (JsError.plain "OpenAI client not initialized properly.")
  | .openaiWebsearch =>
      if optTruthy clients.openai &&
          optTruthy (config.models Provider.openaiWebsearch) then
        Except.ok ()
      else
        Except.error
          (JsError.plain "OpenAI Web Search client not initialized properly.")
  | .perplexity =>
      if optTruthy clients.perplexity &&
          optTruthy (config.models Provider.perplexity) then
        Except.ok ()
      else
        Except.error (JsError.plain "Perplexity client not initialized properly.")

/-- The stable work-unit identifier `` `prompt-${pIndex}-${provider}` ``
built on line 477. -/
def taskIdOf (pIndex : Nat) (p : Provider) : String :=
  "prompt-" ++ toString pIndex ++ "-" ++ providerKey p

/-- All work-unit identifiers a configuration generates, in creation
order (prompt-major, provider-minor). -/
def allTaskIds (config : AppConfig) : List String :=
  config.prompts.enum.flatMap fun ip => config.providers.map (taskIdOf ip.1)

/-- One `updateTaskStatus` call (lines 485-493): the targeted unit id,
the new status, and the optional error message / retry counter written
with it. Each call re-emits a snapshot; the run log is the ordered list
of these calls. -/
structure Transition where
  taskId : String
  status : TaskStatus
  error : Option String
  retries : Option Nat
deriving DecidableEq

deriving instance DecidableEq for Except

/-- What a `runAnalysis` invocation produces: the settled promise (result
list or rejection), whether the initial all-pending snapshot on line 483
was emitted, and the ordered log of `updateTaskStatus` calls. -/
structure RunOutcome where
  result : Except JsError (List AnalysisResult)
  initialEmitted : Bool
  transitions : List Transition
deriving DecidableEq

/-- The per-work-unit behavior oracle: for prompt index, provider and
1-based attempt number, the outcome of that adapter invocation (the
network-dependent part of the run). -/
def Behavior : Type :=
  Nat → Provider → Nat → Except Thrown ProviderResponse

/-- The synthesized error result built in the `catch` arm of lines
541-547: empty response, empty lists, `error` holding the message,
`rawResponse` holding the serialized exception. -/
def errorProviderResult (p : Provider) (e : JsError) : ProviderResponse :=
  { provider := p
    response := ""
    brandAnalyses := []
    additionalAnswers := []
    rawResponse := some (serializeError e)
    error := some e.message
    citations := none
    tokenUsage := none
    analysisTokenUsage := none }

/-- Lines 526-547 for one work unit, after its dispatch succeeded: drive
the adapter through `retryWithBackoff` with 2 retries; each `onRetry`
re-marks the unit `in_progress` with the attempt number as retry counter;
a resolved response with a truthy `error` field marks the unit `error`
(soft failure) and is returned as-is, otherwise `completed`; a rejection
marks the unit `error` and synthesizes `errorProviderResult`. -/
def runUnit (outcomes : Nat → Except Thrown ProviderResponse)
    (p : Provider) (tid : String) : ProviderResponse × List Transition :=
  let settled := retryWithBackoff 2 outcomes
  let retryTransitions : List Transition :=
    settled.2.filterMap fun ev =>
      match ev with
      | .onRetry _ attempt =>
          some { taskId := tid, status := TaskStatus.inProgress,
                 error := none, retries := some attempt }
      | .wait _ => none
  match settled.1 with
  | .ok resp =>
      if optTruthy resp.error then
        (resp, retryTransitions ++
          [{ taskId := tid, status := TaskStatus.error,
             error := resp.error, retries := none }])
      else
        (resp, retryTransitions ++
          [{ taskId := tid, status := TaskStatus.completed,
             error := none, retries := none }])
  | .error e =>
      (errorProviderResult p e, retryTransitions ++
        [{ taskId := tid, status := TaskStatus.error,
           error := some e.message, retries := none }])

/-- First dispatch failure among the listed providers, in selection
order. Every unit's async closure runs its synchronous prologue (the
`in_progress` mark and the dispatch `switch`) before `Promise.all`
settles, so the earliest-indexed dispatch throw is the rejection
`Promise.all` surfaces. -/
def firstDispatchError (clients : LlmClients) (config : AppConfig) :
    List Provider → Option JsError
  | [] => none
  | p :: rest =>
    match dispatchCheck clients config p with
    | .error e => some e
    | .ok _ => firstDispatchError clients config rest

/-- One prompt's provider fan-out (lines 497-551), linearized in provider
order. The prologue marks every unit of the prompt `in_progress`; if some
dispatch throws, the whole run rejects with the first such error (no unit
of this prompt settles); otherwise every unit runs to a result. -/
def processPrompt (clients : LlmClients) (config : AppConfig)
    (behavior : Behavior) (pIndex : Nat) :
    Except JsError (List ProviderResponse) × List Transition :=
  let prologue : List Transition :=
    config.providers.map fun p =>
      { taskId := taskIdOf pIndex p, status := TaskStatus.inProgress,
        error := none, retries := none }
  match firstDispatchError clients config config.providers with
  | some e => (.error e, prologue)
  | none =>
      let pairs := config.providers.map fun p =>
        runUnit (behavior pIndex p) p (taskIdOf pIndex p)
      (.ok (pairs.map Prod.fst), prologue ++ (pairs.map Prod.snd).flatten)

/-- The sequential prompt loop (lines 495-552): prompt N+1 starts only
after prompt N fully resolved; a rejected prompt rejects the whole run
with the log truncated there. -/
def runPrompts (clients : LlmClients) (config : AppConfig)
    (behavior : Behavior) :
    List (Nat × String) → Except JsError (List AnalysisResult) × List Transition
  | [] => (.ok [], [])
  | ip :: rest =>
    let step := processPrompt clients config behavior ip.1
    match step.1 with
    | .error e => (.error e, step.2)
    | .ok prs =>
        let tail := runPrompts clients config behavior rest
        match tail.1 with
        | .error e => (.error e, step.2 ++ tail.2)
        | .ok results =>
            (.ok ({ prompt := ip.2, providerResponses := prs } :: results),
             step.2 ++ tail.2)

/-- `runAnalysis` (lines 468-555): initialize clients (a throw there
rejects before any work unit exists or any snapshot is emitted), then
build the prompt × provider work units, emit the initial all-pending
snapshot, and run the prompts sequentially. -/
def runAnalysis (config : AppConfig) (behavior : Behavior) : RunOutcome :=
  match initializeClients config with
  | .error e => { result := .error e, initialEmitted := false, transitions := [] }
  | .ok clients =>
      let run := runPrompts clients config behavior config.prompts.enum
      { result := run.1, initialEmitted := true, transitions := run.2 }

/-- The errors on which the run as a whole can reject: the missing-key
throw of `initializeClients` and the four dispatch-arm throws. These are
exactly the specification's `ConfigurationError` class (missing
credential or model for a selected provider). -/
def isConfigurationError (e : JsError) : Bool :=
  e == JsError.plain "Google Gemini API Key is missing." ||
  e == JsError.plain "Gemini client not initialized properly." ||
  e == JsError.plain "OpenAI client not initialized properly." ||
  e == JsError.plain "OpenAI Web Search client not initialized properly." ||
  e == JsError.plain "Perplexity client not initialized properly."

/-- The lifecycle a work unit's emitted status sequence may follow, per
claim C9: some (possibly zero, if the run rejects before reaching the
unit) `in_progress` marks, optionally closed by exactly one terminal
`completed` or `error` mark that nothing follows; the status never
regresses and `pending` (the initial state) is never re-emitted. -/
def lifecycleOk (σ : List TaskStatus) : Prop :=
  ∃ k, σ = List.replicate k TaskStatus.inProgress ∨
    (1 ≤ k ∧ (σ = List.replicate k TaskStatus.inProgress ++ [TaskStatus.completed] ∨
              σ = List.replicate k TaskStatus.inProgress ++ [TaskStatus.error]))

/-- One element of the raw `citations` array of a Perplexity response: a
string URL or some other JSON value (skipped by the
`typeof url === 'string'` check on line 408). -/
inductive CitEntry where
  | str (url : String)
  | nonStr
deriving DecidableEq

/-- One element of the raw `search_results` array: a nullish entry, or an
object whose `url` is a string or not (line 417 skips nullish entries and
non-string urls) and whose `title` may be absent (line 419 defaults it to
`''`). -/
inductive SREntry where
  | nullEntry
  | obj (url : Option String) (title : Option String)
deriving DecidableEq

/-- The `forEach` over `rawData.citations` (lines 406-413): keeps string
URLs not yet seen, assigning the running 1-based index and an empty
title. Returns the citations produced, the grown seen-set, and the next
index. -/
def addCitationUrls : List CitEntry → List String → Nat →
    List Citation × List String × Nat
  | [], seen, idx => ([], seen, idx)
  | .nonStr :: rest, seen, idx => addCitationUrls rest seen idx
  | .str u :: rest, seen, idx =>
      if seen.contains u then addCitationUrls rest seen idx
      else
        let next := addCitationUrls rest (u :: seen) (idx + 1)
        ({ index := idx, url := u, title := some "" } :: next.1, next.2)

/-- The `forEach` over `rawData.search_results` (lines 415-422): keeps
entries with a string URL not yet seen, assigning the running index and
the entry's title defaulted to `''`. -/
def addSearchResultUrls : List SREntry → List String → Nat →
    List Citation × List String × Nat
  | [], seen, idx => ([], seen, idx)
  | .nullEntry :: rest, seen, idx => addSearchResultUrls rest seen idx
  | .obj none _ :: rest, seen, idx => addSearchResultUrls rest seen idx
  | .obj (some u) title :: rest, seen, idx =>
      if seen.contains u then addSearchResultUrls rest seen idx
      else
        let next := addSearchResultUrls rest (u :: seen) (idx + 1)
        ({ index := idx, url := u, title := some (title.getD "") } :: next.1,
         next.2)

/-- Citation parsing of the Perplexity adapter (lines 401-422): process
the `citations` field first, then `search_results`, sharing the seen-set
and the running index that starts at 1; a missing or non-array field
contributes nothing. -/
def parsePerplexityCitations (cits : Option (List CitEntry))
    (srs : Option (List SREntry)) : List Citation :=
  let first := addCitationUrls (cits.getD []) [] 1
  let second := addSearchResultUrls (srs.getD []) first.2.1 first.2.2
  first.1 ++ second.1

/-- The string URLs of a raw `citations` field, in order (what the
adapter is allowed to keep from that field). -/
def citUrls : List CitEntry → List String
  | [] => []
  | .str u :: rest => u :: citUrls rest
  | .nonStr :: rest => citUrls rest

/-- The string URLs of a raw `search_results` field, in order. -/
def srUrls : List SREntry → List String
  | [] => []
  | .obj (some u) _ :: rest => u :: srUrls rest
  | .obj none _ :: rest => srUrls rest
  | .nullEntry :: rest => srUrls rest

/-- First-occurrence de-duplication of a URL list against an
already-seen set, as claim C7 words it: each URL is kept the first time
it appears and dropped afterwards. -/
def dedupNewUrls (seen : List String) : List String → List String
  | [] => []
  | u :: rest =>
      if seen.contains u then dedupNewUrls seen rest
      else u :: dedupNewUrls (u :: seen) rest

/-- `usageMetadata` of a Gemini SDK response (each count may be absent
and is defaulted to 0 by the `|| 0` on lines 157-158). -/
structure GeminiUsage where
  promptTokenCount : Option Nat
  candidatesTokenCount : Option Nat
  thoughtsTokenCount : Option Nat
deriving DecidableEq

/-- One `generateContent` response as the Gemini adapter reads it: its
`.text` and its optional `usageMetadata`. -/
structure GeminiCallData where
  text : String
  usage : Option GeminiUsage
deriving DecidableEq

/-- The input-token count a Gemini response contributes. -/
def GeminiCallData.inTokens (d : GeminiCallData) : Nat :=
  match d.usage with
  | none => 0
  | some u => u.promptTokenCount.getD 0

/-- The output-token count a Gemini response contributes (candidates plus
thoughts, line 158). -/
def GeminiCallData.outTokens (d : GeminiCallData) : Nat :=
  match d.usage with
  | none => 0
  | some u => u.candidatesTokenCount.getD 0 + u.thoughtsTokenCount.getD 0

/-- The wire oracle for one Gemini adapter invocation: the outcome of the
primary call, of the analysis call, of `JSON.parse` on the analysis text,
and of the per-question calls (indexed in question order). The prompt
strings sent on each call are built from the configuration but do not
influence these outcomes, so their construction is not replayed here. -/
structure GeminiWire where
  initial : Except Thrown GeminiCallData
  analysis : Except Thrown GeminiCallData
  parseBrands : String → Except Thrown (List BrandAnalysis)
  answers : Nat → Except Thrown GeminiCallData

/-- The `Promise.all` over `additionalQuestions.map` (lines 179-190):
one further call per question, collected in question order; the first
rejection rejects the whole adapter invocation. -/
def collectGeminiAnswers (wire : GeminiWire) :
    List (Nat × String) →
      Except Thrown (List AdditionalQuestionAnswer × List GeminiCallData)
  | [] => .ok ([], [])
  | iq :: rest => do
      let d ← wire.answers iq.1
      let tail ← collectGeminiAnswers wire rest
      .ok ({ question := iq.2, answer := d.text } :: tail.1, d :: tail.2)

/-- The raw-trace accumulator `allRawResponses` serialized on line 192;
modelled as a canonical rendering of the calls' texts in push order. -/
def geminiRawTrace (initial analysis : GeminiCallData)
    (answers : List GeminiCallData) : String :=
  "\x7b \"initial_prompt\": \"" ++ initial.text ++
    "\", \"brand_analysis\": \"" ++ analysis.text ++
    "\", \"additional_questions\": \"" ++
    String.intercalate "; " (answers.map GeminiCallData.text) ++ "\" \x7d"

/-- The catch block of lines 197-205: a thrown `Error` whose message
includes `'API key not valid'` is replaced by a fresh authentication
error; anything else is rethrown unchanged (a thrown non-`Error` yields
the fallback message, which never matches). -/
def geminiCatchTransform (e : Thrown) : Thrown :=
  match e with
  | .err er =>
      if strIncludes er.message "API key not valid" then
        .err (.plain
          "Authentication failed. Please check if the Google Gemini API key is correct and valid.")
      else .err er
  | .nonError s => .nonError s

/-- `runGeminiAnalysisForPrompt` (lines 142-206): primary call, analysis
call parsed by `JSON.parse` with NO post-processing of the brand list,
per-question calls, token subtotals (primary+questions vs analysis), raw
trace; any rejection flows through the catch block. -/
def runGeminiAnalysisForPrompt (config : AppConfig) (wire : GeminiWire) :
    Except Thrown ProviderResponse :=
  let body : Except Thrown ProviderResponse := do
    let rawResult ← wire.initial
    let response := rawResult.text
    let analysisResult ← wire.analysis
    let brandAnalyses ← wire.parseBrands analysisResult.text
    let collected ← collectGeminiAnswers wire config.additionalQuestions.enum
    let qData := collected.2
    let otherIn := rawResult.inTokens + (qData.map GeminiCallData.inTokens).sum
    let otherOut := rawResult.outTokens + (qData.map GeminiCallData.outTokens).sum
    .ok { provider := Provider.gemini
          response := response
          brandAnalyses := brandAnalyses
          additionalAnswers := collected.1
          rawResponse := some (geminiRawTrace rawResult analysisResult qData)
          error := none
          citations := none
          tokenUsage := some { inputTokens := otherIn, outputTokens := otherOut }
          analysisTokenUsage := some
            { inputTokens := analysisResult.inTokens
              outputTokens := analysisResult.outTokens } }
  match body with
  | .ok r => .ok r
  | .error e => .error (geminiCatchTransform e)

/-- Earliest occurrence of `pat` in a character list: returns the part
before the occurrence and the part after it, or `none` when `pat` does
not occur. -/
def splitAtSub (pat : List Char) : List Char → Option (List Char × List Char)
  | [] => if pat.isEmpty then some ([], []) else none
  | c :: rest =>
      if pat.isPrefixOf (c :: rest) then some ([], (c :: rest).drop pat.length)
      else
        match splitAtSub pat rest with
        | some pre => some (c :: pre.1, pre.2)
        | none => none

/-- The regex match of line 438, `` /```json\n([\s\S]*?)\n```/ ``: the
leftmost occurrence of the opening fence, then the shortest stretch up to
the next closing fence; `none` when the pattern does not match. (If the
full pattern matches anywhere it also matches from the first opening
fence, so taking the first opening fence is the regex's leftmost
semantics.) -/
def extractJsonFence (s : String) : Option String :=
  match splitAtSub ("```json\n".toList) s.toList with
  | none => none
  | some opened =>
      match splitAtSub ("\n```".toList) opened.2 with
      | none => none
      | some inner => some (String.mk inner.1)

/-- The `usage` object of an OpenAI-compatible chat response; each count
is defaulted to 0 by `|| 0`. -/
structure ChatUsage where
  promptTokens : Option Nat
  completionTokens : Option Nat
deriving DecidableEq

/-- One chat-completions response as the Perplexity adapter reads it:
`choices[0].message.content` plus the optional `usage`. -/
structure PChatData where
  content : String
  usage : Option ChatUsage
deriving DecidableEq

/-- The input-token count a chat response contributes. -/
def PChatData.inTokens (d : PChatData) : Nat :=
  match d.usage with
  | none => 0
  | some u => u.promptTokens.getD 0

/-- The output-token count a chat response contributes. -/
def PChatData.outTokens (d : PChatData) : Nat :=
  match d.usage with
  | none => 0
  | some u => u.completionTokens.getD 0

/-- The primary Perplexity response: the chat payload plus the optional
top-level `citations` and `search_results` arrays. -/
structure PerplexityInitial where
  chat : PChatData
  citations : Option (List CitEntry)
  searchResults : Option (List SREntry)
deriving DecidableEq

/-- The wire oracle for one Perplexity adapter invocation: outcome of the
primary call, of the analysis call, of `JSON.parse(...).brands` on an
extracted fence payload, and of the per-question calls. As for Gemini,
the constructed prompt strings do not influence these outcomes and are
not replayed. -/
structure PerplexityWire where
  initial : Except Thrown PerplexityInitial
  analysis : Except Thrown PChatData
  parseBrands : String → Except Thrown (List BrandAnalysis)
  answers : Nat → Except Thrown PChatData

/-- The `Promise.all` over `additionalQuestions.map` (lines 441-452). -/
def collectPerplexityAnswers (wire : PerplexityWire) :
    List (Nat × String) →
      Except Thrown (List AdditionalQuestionAnswer × List PChatData)
  | [] => .ok ([], [])
  | iq :: rest => do
      let d ← wire.answers iq.1
      let tail ← collectPerplexityAnswers wire rest
      .ok ({ question := iq.2, answer := d.content } :: tail.1, d :: tail.2)

/-- The serialized `allRawResponses` of line 454, rendered canonically. -/
def perplexityRawTrace (initial : PerplexityInitial) (analysis : PChatData)
    (answers : List PChatData) : String :=
  "\x7b \"initial_prompt\": \"" ++ initial.chat.content ++
    "\", \"brand_analysis\": \"" ++ analysis.content ++
    "\", \"additional_questions\": \"" ++
    String.intercalate "; " (answers.map PChatData.content) ++ "\" \x7d"

/-- `runPerplexityAnalysisForPrompt` (lines 384-465): primary call,
citation parsing over the two raw fields, analysis call whose content is
searched for a ```json fence — when the fence is absent the brand list
silently becomes `[]` (line 439) with no error recorded — per-question
calls, token subtotals and raw trace. -/
def runPerplexityAnalysisForPrompt (config : AppConfig)
    (wire : PerplexityWire) : Except Thrown ProviderResponse := do
  let rawData ← wire.initial
  let pResponse := rawData.chat.content
  let citations := parsePerplexityCitations rawData.citations rawData.searchResults
  let analysisData ← wire.analysis
  let brandAnalyses ←
    match extractJsonFence analysisData.content with
    | some payload => wire.parseBrands payload
    | none => Except.ok []
  let collected ← collectPerplexityAnswers wire config.additionalQuestions.enum
  let qData := collected.2
  let otherIn := rawData.chat.inTokens + (qData.map PChatData.inTokens).sum
  let otherOut := rawData.chat.outTokens + (qData.map PChatData.outTokens).sum
  .ok { provider := Provider.perplexity
        response := pResponse
        brandAnalyses := brandAnalyses
        additionalAnswers := collected.1
        rawResponse := some (perplexityRawTrace rawData analysisData qData)
        error := none
        citations := some citations
        tokenUsage := some { inputTokens := otherIn, outputTokens := otherOut }
        analysisTokenUsage := some
          { inputTokens := analysisData.inTokens
            outputTokens := analysisData.outTokens } }

/-- The result slot a work unit contributes (first component of
`runUnit`). -/
def unitResult (behavior : Behavior) (i : Nat) (p : Provider) :
    ProviderResponse :=
  (runUnit (behavior i p) p (taskIdOf i p)).1

/-- The transition log a work unit contributes (second component of
`runUnit`). -/
def unitLog (behavior : Behavior) (i : Nat) (p : Provider) : List Transition :=
  (runUnit (behavior i p) p (taskIdOf i p)).2

/-- The synchronous prologue of one prompt's fan-out: every unit is
marked `in_progress`, in provider order. -/
def promptPrologue (config : AppConfig) (i : Nat) : List Transition :=
  config.providers.map fun p =>
    { taskId := taskIdOf i p, status := TaskStatus.inProgress,
      error := none, retries := none }

/-- The full transition log of one prompt whose dispatches all
succeeded. -/
def promptLog (config : AppConfig) (behavior : Behavior) (i : Nat) :
    List Transition :=
  promptPrologue config i ++ (config.providers.map (unitLog behavior i)).flatten

/-- The work-unit identifiers generated by a sublist of the enumerated
prompts (`allTaskIds config = idsOf config config.prompts.enum`). -/
def idsOf (config : AppConfig) (l : List (Nat × String)) : List String :=
  l.flatMap fun ip => config.providers.map (taskIdOf ip.1)

/-- Fixture: a fully configured run over all four providers, two prompts,
no auxiliary questions. -/
def cfgFull : AppConfig :=
  { providers := [Provider.gemini, Provider.openai, Provider.openaiWebsearch,
      Provider.perplexity]
    apiKeys := { gemini := some "gk", openai := some "ok", perplexity := some "pk" }
    models := fun _ => some "model-x"
    clientName := "Acme"
    competitors := ["Globex"]
    prompts := ["Who leads PIM software?", "Who is second?"]
    additionalQuestions := []
    broadMatch := false }

/-- Fixture: a behavior on which every adapter invocation rejects with a
retryable HTTP 500, on every attempt. -/
def behaviorFail : Behavior :=
  fun _ _ _ => Except.error (Thrown.err (JsError.apiError "Internal Server Error" 500))

/-- Fixture: OpenAI selected but its key absent (and Gemini unselected,
so `initializeClients` does not throw). -/
def cfgNoOpenaiKey : AppConfig :=
  { providers := [Provider.openai]
    apiKeys := { gemini := none, openai := none, perplexity := none }
    models := fun _ => some "gpt-4o"
    clientName := "Acme"
    competitors := []
    prompts := ["Who leads PIM software?"]
    additionalQuestions := []
    broadMatch := false }

/-- Fixture: Gemini selected with a missing key. -/
def cfgNoGeminiKey : AppConfig :=
  { providers := [Provider.gemini]
    apiKeys := { gemini := none, openai := none, perplexity := none }
    models := fun _ => some "gemini-2.5-flash"
    clientName := "Acme"
    competitors := []
    prompts := ["Who leads PIM software?"]
    additionalQuestions := []
    broadMatch := false }

/-- Fixture: a Gemini wire on which the model's analysis output reports
only `Acme`, although the configuration also names `Globex`. -/
def gWireOmits : GeminiWire :=
  { initial := Except.ok { text := "Acme and Globex are leaders", usage := none }
    analysis := Except.ok { text := "analysis-json", usage := none }
    parseBrands := fun _ =>
      Except.ok [{ brandName := "Acme", mentions := 1, sentiment := "Positive" }]
    answers := fun _ => Except.ok { text := "", usage := none } }

/-- Fixture: a Perplexity wire whose analysis content has no ```json
fence. -/
def pWireNoFence : PerplexityWire :=
  { initial := Except.ok
      { chat := { content := "Acme is leading.", usage := none }
        citations := none
        searchResults := none }
    analysis := Except.ok
      { content := "The brands are Acme and Globex, no code block here."
        usage := none }
    parseBrands := fun _ => Except.error (Thrown.nonError "unused")
    answers := fun _ => Except.ok { content := "", usage := none } }

/-- Fixture: attempts that always reject with a retryable HTTP 503. -/
def outcomes503 : Nat → Except Thrown Unit :=
  fun _ => Except.error (Thrown.err (JsError.apiError "Service Unavailable" 503))

/-- Fixture: attempts that always reject by throwing the non-`Error`
string value `"boom"`. -/
def outcomesBoom : Nat → Except Thrown Unit :=
  fun _ => Except.error (Thrown.nonError "boom")

theorem retryGo_trace_zero {α : Type} (outcomes : Nat → Except Thrown α)
    (attempt : Nat) : (retryGo outcomes attempt 0).2 = [] := by
  cases ho : outcomes attempt <;> simp [retryGo, ho]

theorem append_cons_eq_cons_cons {β : Type} (l1 l2 rest : List β) (a b c : β)
    (h : l1 ++ a :: l2 = b :: c :: rest) :
    (a = b ∧ l2 = c :: rest) ∨ (a = c ∧ l2 = rest) ∨
    (∃ l1', l1 = b :: c :: l1' ∧ l1' ++ a :: l2 = rest) := by
  match l1 with
  | [] =>
      simp only [List.nil_append, List.cons.injEq] at h
      exact Or.inl ⟨h.1, h.2⟩
  | [x] =>
      simp only [List.cons_append, List.nil_append, List.cons.injEq] at h
      exact Or.inr (Or.inl ⟨h.2.1, h.2.2⟩)
  | x :: y :: l1' =>
      simp only [List.cons_append, List.cons.injEq] at h
      exact Or.inr (Or.inr ⟨l1', by rw [h.1, h.2.1], h.2.2⟩)

theorem retryGo_onRetry_wait {α : Type} (outcomes : Nat → Except Thrown α)
    (remaining : Nat) :
    ∀ attempt pre post e k,
      (retryGo outcomes attempt remaining).2 = pre ++ REvent.onRetry e k :: post →
      post.head? = some (REvent.wait (1000 * 2 ^ (k - 1))) := by
  induction remaining with
  | zero =>
      intro attempt pre post e k h
      rw [retryGo_trace_zero] at h
      simp at h
  | succ r ih =>
      intro attempt pre post e k h
      cases ho : outcomes attempt with
      | ok v => simp [retryGo, ho] at h
      | error e' =>
          cases hr : isRetryableError e' with
          | false => simp [retryGo, ho, hr] at h
          | true =>
              simp only [retryGo, ho, hr, if_true] at h
              rcases append_cons_eq_cons_cons pre post _ _ _ _ h.symm with
                ⟨ha, hpost⟩ | ⟨ha, hpost⟩ | ⟨pre'', hpre, h''⟩
              · injection ha with he hk
                subst hk
                subst hpost
                rfl
              · exact absurd ha (by simp)
              · exact ih (attempt + 1) pre'' post e k h''.symm

theorem retryGo_nonretryable_trace {α : Type} (outcomes : Nat → Except Thrown α)
    (attempt remaining : Nat) (e : Thrown)
    (ho : outcomes attempt = Except.error e)
    (hnr : isRetryableError e = false) :
    (retryGo outcomes attempt remaining).2 = [] := by
  cases remaining <;> simp [retryGo, ho, hnr]

theorem retryWithBackoff_first_wait {α : Type} (outcomes : Nat → Except Thrown α)
    (e₁ : Thrown) (h1 : outcomes 1 = Except.error e₁)
    (hr1 : isRetryableError e₁ = true) :
    ∃ tr, (retryWithBackoff 2 outcomes).2 =
      REvent.onRetry (toError e₁) 1 :: REvent.wait 1000 :: tr := by
  refine ⟨(retryGo outcomes 2 1).2, ?_⟩
  simp [retryWithBackoff, retryGo, h1, hr1]

theorem retryWithBackoff_two_trace {α : Type} (outcomes : Nat → Except Thrown α)
    (e₁ e₂ : Thrown)
    (h1 : outcomes 1 = Except.error e₁) (hr1 : isRetryableError e₁ = true)
    (h2 : outcomes 2 = Except.error e₂) (hr2 : isRetryableError e₂ = true) :
    (retryWithBackoff 2 outcomes).2 =
      [REvent.onRetry (toError e₁) 1, REvent.wait 1000,
       REvent.onRetry (toError e₂) 2, REvent.wait 2000] := by
  cases ho3 : outcomes 3 <;>
    simp [retryWithBackoff, retryGo, h1, hr1, h2, hr2, ho3]

/-- Claim C5: on a retryable failure at attempt k with attempts
remaining, the engine invokes `onRetry(error, k)` immediately followed by
a wait of `1000 * 2^(k-1)` ms; under the orchestrator's policy of 2
retries, a first retryable failure is followed by a 1000ms wait and a
second by a 2000ms wait (and nothing more when attempt 3 settles the
run); a non-retryable failure produces no wait at all. -/
theorem retry_backoff_schedule {α : Type} (outcomes : Nat → Except Thrown α) :
    (∀ retries pre post e k,
      (retryWithBackoff retries outcomes).2 = pre ++ REvent.onRetry e k :: post →
      post.head? = some (REvent.wait (1000 * 2 ^ (k - 1)))) ∧
    (∀ e₁, outcomes 1 = Except.error e₁ → isRetryableError e₁ = true →
      (∃ tr, (retryWithBackoff 2 outcomes).2 =
        REvent.onRetry (toError e₁) 1 :: REvent.wait 1000 :: tr) ∧
      ∀ e₂, outcomes 2 = Except.error e₂ → isRetryableError e₂ = true →
        (retryWithBackoff 2 outcomes).2 =
          [REvent.onRetry (toError e₁) 1, REvent.wait 1000,
           REvent.onRetry (toError e₂) 2, REvent.wait 2000]) ∧
    (∀ attempt remaining e, outcomes attempt = Except.error e →
      isRetryableError e = false →
      (retryGo outcomes attempt remaining).2 = []) := by
  refine ⟨?_, ?_, ?_⟩
  · intro retries pre post e k h
    exact retryGo_onRetry_wait outcomes retries 1 pre post e k h
  · intro e₁ h1 hr1
    exact ⟨retryWithBackoff_first_wait outcomes e₁ h1 hr1,
      fun e₂ h2 hr2 => retryWithBackoff_two_trace outcomes e₁ e₂ h1 hr1 h2 hr2⟩
  · intro attempt remaining e ho hnr
    exact retryGo_nonretryable_trace outcomes attempt remaining e ho hnr

theorem retry_backoff_schedule_witness :
    (outcomes503 1 =
      Except.error (Thrown.err (JsError.apiError "Service Unavailable" 503)) ∧
     isRetryableError (Thrown.err (JsError.apiError "Service Unavailable" 503)) = true) ∧
    (retryWithBackoff 2 outcomes503).2 =
      [REvent.onRetry (JsError.apiError "Service Unavailable" 503) 1,
       REvent.wait 1000,
       REvent.onRetry (JsError.apiError "Service Unavailable" 503) 2,
       REvent.wait 2000] := by
  refine ⟨⟨rfl, by decide⟩, ?_⟩
  have h := ((retry_backoff_schedule outcomes503).2.1 _ rfl (by decide)).2 _ rfl (by decide)
  simpa [toError] using h

theorem retryGo_error_src {α : Type} (outcomes : Nat → Except Thrown α) :
    ∀ remaining attempt err,
      (retryGo outcomes attempt remaining).1 = Except.error err →
      ∃ k t, attempt ≤ k ∧ k ≤ attempt + remaining ∧
        outcomes k = Except.error t ∧ err = toError t ∧
        (isRetryableError t = false ∨ k = attempt + remaining) := by
  intro remaining
  induction remaining with
  | zero =>
      intro attempt err h
      cases ho : outcomes attempt with
      | ok v => simp [retryGo, ho] at h
      | error e =>
          simp only [retryGo, ho, Except.error.injEq] at h
          exact ⟨attempt, e, le_refl _, by omega, ho, h.symm, Or.inr (by omega)⟩
  | succ r ih =>
      intro attempt err h
      cases ho : outcomes attempt with
      | ok v => simp [retryGo, ho] at h
      | error e =>
          cases hr : isRetryableError e with
          | true =>
              have h' : (retryGo outcomes (attempt + 1) r).1 = Except.error err := by
                simpa [retryGo, ho, hr] using h
              obtain ⟨k, t, hk1, hk2, hkt, het, hlast⟩ := ih (attempt + 1) err h'
              refine ⟨k, t, by omega, by omega, hkt, het, ?_⟩
              rcases hlast with hl | hl
              · exact Or.inl hl
              · exact Or.inr (by omega)
          | false =>
              have h' : toError e = err := by
                simpa [retryGo, ho, hr] using h
              exact ⟨attempt, e, le_refl _, by omega, ho, h'.symm, Or.inl hr⟩

/-- Claim C8 (amended): when the retry engine exhausts its retries or
hits a non-retryable failure, the value it throws is the final failed
attempt's thrown value normalized by
`e instanceof Error ? e : new Error(String(e))`: an `Error` instance is
re-raised unchanged, while a thrown non-`Error` value is wrapped as
`new Error(String(e))`. -/
theorem retry_reraises_last_error {α : Type} (retries : Nat)
    (outcomes : Nat → Except Thrown α) (err : JsError)
    (h : (retryWithBackoff retries outcomes).1 = Except.error err) :
    ∃ k t, 1 ≤ k ∧ k ≤ retries + 1 ∧ outcomes k = Except.error t ∧
      err = toError t ∧ (∀ e, t = Thrown.err e → err = e) ∧
      (isRetryableError t = false ∨ k = retries + 1) := by
  obtain ⟨k, t, h1, h2, h3, h4, h5⟩ := retryGo_error_src outcomes retries 1 err h
  refine ⟨k, t, h1, by omega, h3, h4, ?_, ?_⟩
  · intro e he
    subst he
    simpa [toError] using h4
  · rcases h5 with hl | hl
    · exact Or.inl hl
    · exact Or.inr (by omega)

theorem retry_reraises_last_error_witness :
    (retryWithBackoff 2 outcomesBoom).1 = Except.error (JsError.plain "boom") ∧
    ∃ k t, 1 ≤ k ∧ k ≤ 3 ∧ outcomesBoom k = Except.error t ∧
      JsError.plain "boom" = toError t ∧
      (∀ e, t = Thrown.err e → JsError.plain "boom" = e) ∧
      (isRetryableError t = false ∨ k = 3) :=
  ⟨by decide,
   retry_reraises_last_error 2 outcomesBoom (JsError.plain "boom") (by decide)⟩

/-- Claim C8 (counterexample): a run whose every attempt throws the
non-`Error` string value `"boom"` makes `retryWithBackoff` throw
`new Error("boom")`, which is NOT the thrown value of the final failed
attempt — the claim's "re-raises the last error unchanged, without
wrapping" fails for thrown non-`Error` values. -/
theorem retry_wraps_nonError_counterexample :
    (retryWithBackoff 2 outcomesBoom).1 = Except.error (JsError.plain "boom") ∧
    outcomesBoom 1 = Except.error (Thrown.nonError "boom") ∧
    Thrown.err (JsError.plain "boom") ≠ Thrown.nonError "boom" := by
  decide

/-- Claim C3 (counterexample): HTTP 505 is a 5xx-class status, which the
claim calls retryable, but `isRetryableError` classifies it
non-retryable (its `APIError` band stops at 504). -/
theorem retryable_5xx_counterexample :
    claimRetryable
      (Thrown.err (JsError.apiError "HTTP Version Not Supported" 505)) = true ∧
    isRetryableError
      (Thrown.err (JsError.apiError "HTTP Version Not Supported" 505)) = false := by
  decide

/-- Claim C3 (amended): the classifier marks an error retryable iff it is
the fetch network failure (`TypeError` with message `'Failed to fetch'`),
an HTTP 429 or 500..504 `APIError`, or a non-`APIError` error whose
message contains `'rate limit'` or `'503'`; HTTP 505..599, 401 and other
4xx statuses, parse failures without those message fragments, and thrown
non-`Error` values are all non-retryable. -/
theorem retryable_iff_amended (t : Thrown) :
    isRetryableError t = true ↔ amendedRetryableSpec t := by
  cases t with
  | err e =>
      cases e with
      | typeError m =>
          simp [isRetryableError, amendedRetryableSpec]
      | apiError m s =>
          simp only [isRetryableError, amendedRetryableSpec]
          constructor
          · intro h
            refine Or.inr (Or.inl ⟨m, s, rfl, ?_⟩)
            simpa using h
          · rintro (⟨m1, hm, _⟩ | ⟨m1, s1, heq, hband⟩ | ⟨m1, hm, _⟩)
            · exact absurd hm (by simp)
            · injection heq with h1
              injection h1 with hm1 hs1
              subst hs1
              simpa using hband
            · exact absurd hm (by simp)
      | plain m =>
          simp [isRetryableError, amendedRetryableSpec]
  | nonError s =>
      simp [isRetryableError, amendedRetryableSpec]

theorem exceptOkBind {ε α β : Type} (x : α) (f : α → Except ε β) :
    (Except.ok x >>= f : Except ε β) = f x := rfl

theorem collectGeminiAnswers_ok (wire : GeminiWire) :
    ∀ l : List (Nat × String),
      (∀ iq ∈ l, ∃ d, wire.answers iq.1 = Except.ok d) →
      ∃ pr, collectGeminiAnswers wire l = Except.ok pr := by
  intro l
  induction l with
  | nil => exact fun _ => ⟨([], []), rfl⟩
  | cons iq rest ih =>
      intro h
      obtain ⟨d, hd⟩ := h iq (List.mem_cons_self _ _)
      obtain ⟨pr, hpr⟩ := ih fun x hx => h x (List.mem_cons_of_mem _ hx)
      exact ⟨({ question := iq.2, answer := d.text } :: pr.1, d :: pr.2),
        by simp [collectGeminiAnswers, hd, hpr, exceptOkBind]⟩

/-- Claim C4 (amended): the Gemini adapter asks the model (via the
analysis prompt) to report every configured brand, but performs no
post-processing: on a successful invocation the returned `brandAnalyses`
is exactly the parse of the analysis call's text, so a configured brand
that the model's analysis output omits is absent from the result. -/
theorem gemini_brand_passthrough (config : AppConfig) (wire : GeminiWire)
    (d0 d1 : GeminiCallData) (bs : List BrandAnalysis)
    (h0 : wire.initial = Except.ok d0) (h1 : wire.analysis = Except.ok d1)
    (h2 : wire.parseBrands d1.text = Except.ok bs)
    (h3 : ∀ iq ∈ config.additionalQuestions.enum,
      ∃ d, wire.answers iq.1 = Except.ok d) :
    ∃ r, runGeminiAnalysisForPrompt config wire = Except.ok r ∧
      r.brandAnalyses = bs := by
  obtain ⟨pr, hpr⟩ := collectGeminiAnswers_ok wire _ h3
  have hrun : runGeminiAnalysisForPrompt config wire = Except.ok
      { provider := Provider.gemini
        response := d0.text
        brandAnalyses := bs
        additionalAnswers := pr.1
        rawResponse := some (geminiRawTrace d0 d1 pr.2)
        error := none
        citations := none
        tokenUsage := some
          { inputTokens := d0.inTokens + (pr.2.map GeminiCallData.inTokens).sum
            outputTokens := d0.outTokens + (pr.2.map GeminiCallData.outTokens).sum }
        analysisTokenUsage := some
          { inputTokens := d1.inTokens, outputTokens := d1.outTokens } } := by
    simp [runGeminiAnalysisForPrompt, h0, h1, h2, hpr, exceptOkBind]
  exact ⟨_, hrun, rfl⟩

theorem gemini_brand_passthrough_witness :
    (gWireOmits.initial =
      Except.ok { text := "Acme and Globex are leaders", usage := none } ∧
     gWireOmits.parseBrands "analysis-json" =
      Except.ok [{ brandName := "Acme", mentions := 1, sentiment := "Positive" }]) ∧
    ∃ r, runGeminiAnalysisForPrompt cfgFull gWireOmits = Except.ok r ∧
      r.brandAnalyses =
        [{ brandName := "Acme", mentions := 1, sentiment := "Positive" }] :=
  ⟨⟨rfl, rfl⟩,
   gemini_brand_passthrough cfgFull gWireOmits _ _ _ rfl rfl rfl
     (by intro iq h; simp [cfgFull] at h)⟩

/-- Claim C4 (counterexample): with configured brands `Acme` (client) and
`Globex` (competitor), a model analysis reporting only `Acme` yields a
`brandAnalyses` list with NO `Globex` entry — the adapter does not add
the missing brand with `mentions=0`/`Not Mentioned`. -/
theorem gemini_brand_completeness_counterexample :
    cfgFull.clientName = "Acme" ∧ cfgFull.competitors = ["Globex"] ∧
    (runGeminiAnalysisForPrompt cfgFull gWireOmits).map
      (fun r => r.brandAnalyses.any (fun b => b.brandName == "Globex")) =
      Except.ok false := by
  decide

theorem collectPerplexityAnswers_ok (wire : PerplexityWire) :
    ∀ l : List (Nat × String),
      (∀ iq ∈ l, ∃ d, wire.answers iq.1 = Except.ok d) →
      ∃ pr, collectPerplexityAnswers wire l = Except.ok pr := by
  intro l
  induction l with
  | nil => exact fun _ => ⟨([], []), rfl⟩
  | cons iq rest ih =>
      intro h
      obtain ⟨d, hd⟩ := h iq (List.mem_cons_self _ _)
      obtain ⟨pr, hpr⟩ := ih fun x hx => h x (List.mem_cons_of_mem _ hx)
      exact ⟨({ question := iq.2, answer := d.content } :: pr.1, d :: pr.2),
        by simp [collectPerplexityAnswers, hd, hpr, exceptOkBind]⟩

/-- Claim C10: when the Perplexity analysis content has no ```json fenced
block, the adapter neither throws nor records an error: the invocation
succeeds with an empty `brandAnalyses` list and `error` unset, silently
absorbing the parse failure. -/
theorem perplexity_absorbs_missing_fence (config : AppConfig)
    (wire : PerplexityWire) (init : PerplexityInitial) (ad : PChatData)
    (h0 : wire.initial = Except.ok init) (h1 : wire.analysis = Except.ok ad)
    (h2 : extractJsonFence ad.content = none)
    (h3 : ∀ iq ∈ config.additionalQuestions.enum,
      ∃ d, wire.answers iq.1 = Except.ok d) :
    ∃ r, runPerplexityAnalysisForPrompt config wire = Except.ok r ∧
      r.brandAnalyses = [] ∧ r.error = none := by
  obtain ⟨pr, hpr⟩ := collectPerplexityAnswers_ok wire _ h3
  have hrun : runPerplexityAnalysisForPrompt config wire = Except.ok
      { provider := Provider.perplexity
        response := init.chat.content
        brandAnalyses := []
        additionalAnswers := pr.1
        rawResponse := some (perplexityRawTrace init ad pr.2)
        error := none
        citations := some (parsePerplexityCitations init.citations init.searchResults)
        tokenUsage := some
          { inputTokens := init.chat.inTokens + (pr.2.map PChatData.inTokens).sum
            outputTokens := init.chat.outTokens + (pr.2.map PChatData.outTokens).sum }
        analysisTokenUsage := some
          { inputTokens := ad.inTokens, outputTokens := ad.outTokens } } := by
    simp [runPerplexityAnalysisForPrompt, h0, h1, h2, hpr, exceptOkBind]
  exact ⟨_, hrun, rfl, rfl⟩

theorem perplexity_absorbs_missing_fence_witness :
    extractJsonFence "The brands are Acme and Globex, no code block here." = none ∧
    ∃ r, runPerplexityAnalysisForPrompt cfgFull pWireNoFence = Except.ok r ∧
      r.brandAnalyses = [] ∧ r.error = none :=
  ⟨by decide,
   perplexity_absorbs_missing_fence cfgFull pWireNoFence _ _ rfl rfl (by decide)
     (by intro iq h; simp [cfgFull] at h)⟩

theorem if_contains_pos {γ : Type} (seen : List String) (u : String)
    (h : u ∈ seen) (x y : γ) : (if seen.contains u then x else y) = x := by
  simp [h]

theorem if_contains_neg {γ : Type} (seen : List String) (u : String)
    (h : u ∉ seen) (x y : γ) : (if seen.contains u then x else y) = y := by
  simp [h]

theorem mem_dedupNewUrls :
    ∀ (l seen : List String) (u : String),
      u ∈ dedupNewUrls seen l ↔ (u ∈ l ∧ u ∉ seen) := by
  intro l
  induction l with
  | nil => intro seen u; simp [dedupNewUrls]
  | cons v rest ih =>
      intro seen u
      rw [dedupNewUrls]
      by_cases hv : v ∈ seen
      · rw [if_contains_pos _ _ hv, ih, List.mem_cons]
        constructor
        · rintro ⟨hu, hc⟩
          exact ⟨Or.inr hu, hc⟩
        · rintro ⟨rfl | hu, hc⟩
          · exact absurd hv hc
          · exact ⟨hu, hc⟩
      · rw [if_contains_neg _ _ hv]
        by_cases huv : u = v
        · subst huv
          simp [hv, List.mem_cons]
        · simp [huv, ih, List.mem_cons]

theorem nodup_dedupNewUrls :
    ∀ (l seen : List String), (dedupNewUrls seen l).Nodup := by
  intro l
  induction l with
  | nil => intro seen; simp [dedupNewUrls]
  | cons v rest ih =>
      intro seen
      rw [dedupNewUrls]
      by_cases hv : v ∈ seen
      · rw [if_contains_pos _ _ hv]
        exact ih seen
      · rw [if_contains_neg _ _ hv, List.nodup_cons]
        refine ⟨?_, ih (v :: seen)⟩
        intro hmem
        rw [mem_dedupNewUrls] at hmem
        exact hmem.2 (List.mem_cons_self _ _)

theorem dedupNewUrls_congr :
    ∀ (l seen1 seen2 : List String),
      (∀ u, u ∈ seen1 ↔ u ∈ seen2) →
      dedupNewUrls seen1 l = dedupNewUrls seen2 l := by
  intro l
  induction l with
  | nil => intro _ _ _; rfl
  | cons v rest ih =>
      intro seen1 seen2 hc
      rw [dedupNewUrls, dedupNewUrls]
      by_cases hv : v ∈ seen1
      · rw [if_contains_pos _ _ hv, if_contains_pos _ _ ((hc v).mp hv)]
        exact ih seen1 seen2 hc
      · rw [if_contains_neg _ _ hv,
          if_contains_neg _ _ (fun h => hv ((hc v).mpr h))]
        rw [ih (v :: seen1) (v :: seen2)
          (fun u => by rw [List.mem_cons, List.mem_cons, hc u])]

theorem dedupNewUrls_append :
    ∀ (l1 l2 seen : List String),
      dedupNewUrls seen (l1 ++ l2) =
        dedupNewUrls seen l1 ++
          dedupNewUrls ((dedupNewUrls seen l1).reverse ++ seen) l2 := by
  intro l1
  induction l1 with
  | nil =>
      intro l2 seen
      rw [List.nil_append]
      rw [show dedupNewUrls seen ([] : List String) = [] from rfl]
      rw [List.reverse_nil, List.nil_append, List.nil_append]
  | cons v rest ih =>
      intro l2 seen
      rw [List.cons_append, dedupNewUrls, dedupNewUrls]
      by_cases hv : v ∈ seen
      · rw [if_contains_pos _ _ hv, if_contains_pos _ _ hv]
        exact ih l2 seen
      · rw [if_contains_neg _ _ hv, if_contains_neg _ _ hv]
        rw [ih l2 (v :: seen), List.cons_append]
        rw [List.reverse_cons, List.append_assoc]
        rfl

theorem addCitationUrls_spec :
    ∀ (l : List CitEntry) (seen : List String) (idx : Nat),
      (addCitationUrls l seen idx).1.map Citation.url =
          dedupNewUrls seen (citUrls l) ∧
      (addCitationUrls l seen idx).1.map Citation.index =
          List.range' idx (addCitationUrls l seen idx).1.length ∧
      (addCitationUrls l seen idx).2.1 =
          (dedupNewUrls seen (citUrls l)).reverse ++ seen ∧
      (addCitationUrls l seen idx).2.2 =
          idx + (addCitationUrls l seen idx).1.length := by
  intro l
  induction l with
  | nil => intro seen idx; simp [addCitationUrls, citUrls, dedupNewUrls]
  | cons e rest ih =>
      intro seen idx
      cases e with
      | nonStr =>
          rw [show addCitationUrls (CitEntry.nonStr :: rest) seen idx =
            addCitationUrls rest seen idx from rfl]
          rw [show citUrls (CitEntry.nonStr :: rest) = citUrls rest from rfl]
          exact ih seen idx
      | str u =>
          rw [show addCitationUrls (CitEntry.str u :: rest) seen idx =
            (if seen.contains u then addCitationUrls rest seen idx
             else
               ({ index := idx, url := u, title := some "" } ::
                  (addCitationUrls rest (u :: seen) (idx + 1)).1,
                (addCitationUrls rest (u :: seen) (idx + 1)).2)) from rfl]
          rw [show citUrls (CitEntry.str u :: rest) = u :: citUrls rest from rfl]
          rw [dedupNewUrls]
          by_cases hs : u ∈ seen
          · rw [if_contains_pos _ _ hs, if_contains_pos _ _ hs]
            exact ih seen idx
          · rw [if_contains_neg _ _ hs, if_contains_neg _ _ hs]
            obtain ⟨h1, h2, h3, h4⟩ := ih (u :: seen) (idx + 1)
            refine ⟨?_, ?_, ?_, ?_⟩
            · rw [List.map_cons, h1]
            · rw [List.map_cons, List.length_cons]
              rw [show ∀ n, List.range' idx (n + 1) =
                  idx :: List.range' (idx + 1) n from fun _ => rfl]
              rw [h2]
            · rw [h3, List.reverse_cons, List.append_assoc]
              rfl
            · rw [List.length_cons, h4]
              omega

theorem addSearchResultUrls_spec :
    ∀ (l : List SREntry) (seen : List String) (idx : Nat),
      (addSearchResultUrls l seen idx).1.map Citation.url =
          dedupNewUrls seen (srUrls l) ∧
      (addSearchResultUrls l seen idx).1.map Citation.index =
          List.range' idx (addSearchResultUrls l seen idx).1.length ∧
      (addSearchResultUrls l seen idx).2.1 =
          (dedupNewUrls seen (srUrls l)).reverse ++ seen ∧
      (addSearchResultUrls l seen idx).2.2 =
          idx + (addSearchResultUrls l seen idx).1.length := by
  intro l
  induction l with
  | nil => intro seen idx; simp [addSearchResultUrls, srUrls, dedupNewUrls]
  | cons e rest ih =>
      intro seen idx
      cases e with
      | nullEntry =>
          rw [show addSearchResultUrls (SREntry.nullEntry :: rest) seen idx =
            addSearchResultUrls rest seen idx from rfl]
          rw [show srUrls (SREntry.nullEntry :: rest) = srUrls rest from rfl]
          exact ih seen idx
      | obj ourl title =>
          cases ourl with
          | none =>
              rw [show addSearchResultUrls (SREntry.obj none title :: rest) seen idx =
                addSearchResultUrls rest seen idx from rfl]
              rw [show srUrls (SREntry.obj none title :: rest) = srUrls rest from rfl]
              exact ih seen idx
          | some u =>
              rw [show addSearchResultUrls (SREntry.obj (some u) title :: rest) seen idx =
                (if seen.contains u then addSearchResultUrls rest seen idx
                 else
                   ({ index := idx, url := u, title := some (title.getD "") } ::
                      (addSearchResultUrls rest (u :: seen) (idx + 1)).1,
                    (addSearchResultUrls rest (u :: seen) (idx + 1)).2)) from rfl]
              rw [show srUrls (SREntry.obj (some u) title :: rest) =
                u :: srUrls rest from rfl]
              rw [dedupNewUrls]
              by_cases hs : u ∈ seen
              · rw [if_contains_pos _ _ hs, if_contains_pos _ _ hs]
                exact ih seen idx
              · rw [if_contains_neg _ _ hs, if_contains_neg _ _ hs]
                obtain ⟨h1, h2, h3, h4⟩ := ih (u :: seen) (idx + 1)
                refine ⟨?_, ?_, ?_, ?_⟩
                · rw [List.map_cons, h1]
                · rw [List.map_cons, List.length_cons]
                  rw [show ∀ n, List.range' idx (n + 1) =
                      idx :: List.range' (idx + 1) n from fun _ => rfl]
                  rw [h2]
                · rw [h3, List.reverse_cons, List.append_assoc]
                  rfl
                · rw [List.length_cons, h4]
                  omega

/-- Claim C7: the Perplexity adapter emits exactly one `Citation` per
distinct URL across the raw `citations` and `search_results` fields (URL
list is duplicate-free, and a URL appears iff it is a string URL of one
of the two fields); the `citations` field's URLs are indexed first, then
the not-yet-seen URLs of `search_results`, with indices sequential
starting at 1. -/
theorem perplexity_citation_dedup (cits : Option (List CitEntry))
    (srs : Option (List SREntry)) :
    (parsePerplexityCitations cits srs).map Citation.url =
      dedupNewUrls [] (citUrls (cits.getD [])) ++
        dedupNewUrls (dedupNewUrls [] (citUrls (cits.getD []))).reverse
          (srUrls (srs.getD [])) ∧
    (parsePerplexityCitations cits srs).map Citation.url =
      dedupNewUrls [] (citUrls (cits.getD []) ++ srUrls (srs.getD [])) ∧
    ((parsePerplexityCitations cits srs).map Citation.url).Nodup ∧
    (parsePerplexityCitations cits srs).map Citation.index =
      List.range' 1 (parsePerplexityCitations cits srs).length ∧
    (∀ u, u ∈ (parsePerplexityCitations cits srs).map Citation.url ↔
      (u ∈ citUrls (cits.getD []) ∨ u ∈ srUrls (srs.getD []))) := by
  obtain ⟨c1u, c1i, c1s, c1x⟩ := addCitationUrls_spec (cits.getD []) [] 1
  obtain ⟨c2u, c2i, c2s, c2x⟩ := addSearchResultUrls_spec (srs.getD [])
    (addCitationUrls (cits.getD []) [] 1).2.1
    (addCitationUrls (cits.getD []) [] 1).2.2
  have hp : parsePerplexityCitations cits srs =
      (addCitationUrls (cits.getD []) [] 1).1 ++
        (addSearchResultUrls (srs.getD [])
          (addCitationUrls (cits.getD []) [] 1).2.1
          (addCitationUrls (cits.getD []) [] 1).2.2).1 := rfl
  have hsplit : (parsePerplexityCitations cits srs).map Citation.url =
      dedupNewUrls [] (citUrls (cits.getD [])) ++
        dedupNewUrls (dedupNewUrls [] (citUrls (cits.getD []))).reverse
          (srUrls (srs.getD [])) := by
    rw [hp, List.map_append, c1u, c2u, c1s, List.append_nil]
  have hurls : (parsePerplexityCitations cits srs).map Citation.url =
      dedupNewUrls [] (citUrls (cits.getD []) ++ srUrls (srs.getD [])) := by
    rw [hsplit, dedupNewUrls_append, List.append_nil]
  refine ⟨hsplit, hurls, ?_, ?_, ?_⟩
  · rw [hurls]
    exact nodup_dedupNewUrls _ _
  · rw [hp, List.map_append, c1i, c2i, List.length_append]
    generalize (addSearchResultUrls (srs.getD [])
      (addCitationUrls (cits.getD []) [] 1).2.1
      (addCitationUrls (cits.getD []) [] 1).2.2).1 = A
    rw [c1x]
    have hr := List.range'_append 1
      (addCitationUrls (cits.getD []) [] 1).1.length A.length 1
    rw [one_mul] at hr
    rw [hr, Nat.add_comm]
  · intro u
    rw [hurls, mem_dedupNewUrls]
    simp [List.mem_append]

theorem retryGo_ok_src {α : Type} (outcomes : Nat → Except Thrown α) :
    ∀ remaining attempt v,
      (retryGo outcomes attempt remaining).1 = Except.ok v →
      ∃ k, outcomes k = Except.ok v := by
  intro remaining
  induction remaining with
  | zero =>
      intro attempt v h
      cases ho : outcomes attempt with
      | ok w =>
          have : w = v := by simpa [retryGo, ho] using h
          exact ⟨attempt, by rw [ho, this]⟩
      | error e => simp [retryGo, ho] at h
  | succ r ih =>
      intro attempt v h
      cases ho : outcomes attempt with
      | ok w =>
          have : w = v := by simpa [retryGo, ho] using h
          exact ⟨attempt, by rw [ho, this]⟩
      | error e =>
          cases hr : isRetryableError e with
          | true =>
              have h' : (retryGo outcomes (attempt + 1) r).1 = Except.ok v := by
                simpa [retryGo, ho, hr] using h
              exact ih (attempt + 1) v h'
          | false => simp [retryGo, ho, hr] at h

theorem runUnit_fst (outcomes : Nat → Except Thrown ProviderResponse)
    (p : Provider) (tid : String) :
    (runUnit outcomes p tid).1 =
      match (retryWithBackoff 2 outcomes).1 with
      | Except.ok resp => resp
      | Except.error e => errorProviderResult p e := by
  rw [runUnit]
  cases hs : (retryWithBackoff 2 outcomes).1 with
  | ok resp => by_cases he : optTruthy resp.error = true <;> simp [he]
  | error e => rfl

theorem unitResult_provider (behavior : Behavior) (i : Nat) (p : Provider)
    (hprov : ∀ k r, behavior i p k = Except.ok r → r.provider = p) :
    (unitResult behavior i p).provider = p := by
  rw [unitResult, runUnit_fst]
  cases hs : (retryWithBackoff 2 (behavior i p)).1 with
  | ok resp =>
      obtain ⟨k, hk⟩ := retryGo_ok_src (behavior i p) 2 1 resp hs
      exact hprov k resp hk
  | error e => rfl

theorem firstDispatchError_none (clients : LlmClients) (config : AppConfig) :
    ∀ ps : List Provider,
      (∀ p ∈ ps, dispatchCheck clients config p = Except.ok ()) →
      firstDispatchError clients config ps = none := by
  intro ps
  induction ps with
  | nil => intro _; rfl
  | cons p rest ih =>
      intro h
      have hp := h p (List.mem_cons_self _ _)
      simp only [firstDispatchError, hp]
      exact ih fun q hq => h q (List.mem_cons_of_mem _ hq)

theorem processPrompt_ok (clients : LlmClients) (config : AppConfig)
    (behavior : Behavior) (i : Nat)
    (hfd : firstDispatchError clients config config.providers = none) :
    processPrompt clients config behavior i =
      (Except.ok (config.providers.map (unitResult behavior i)),
       promptLog config behavior i) := by
  simp only [processPrompt, hfd]
  rw [List.map_map, List.map_map]
  rfl

theorem runPrompts_ok (clients : LlmClients) (config : AppConfig)
    (behavior : Behavior)
    (hfd : firstDispatchError clients config config.providers = none) :
    ∀ l : List (Nat × String),
      runPrompts clients config behavior l =
        (Except.ok (l.map fun ip =>
            { prompt := ip.2
              providerResponses :=
                config.providers.map (unitResult behavior ip.1) }),
         (l.map fun ip => promptLog config behavior ip.1).flatten) := by
  intro l
  induction l with
  | nil => rfl
  | cons ip rest ih =>
      simp only [runPrompts, processPrompt_ok clients config behavior ip.1 hfd,
        ih, List.map_cons, List.flatten_cons]

theorem runAnalysis_ok (config : AppConfig) (behavior : Behavior)
    (clients : LlmClients)
    (hinit : initializeClients config = Except.ok clients)
    (hready : ∀ p ∈ config.providers,
      dispatchCheck clients config p = Except.ok ()) :
    runAnalysis config behavior =
      { result := Except.ok (config.prompts.enum.map fun ip =>
          { prompt := ip.2
            providerResponses :=
              config.providers.map (unitResult behavior ip.1) })
        initialEmitted := true
        transitions := (config.prompts.enum.map fun ip =>
          promptLog config behavior ip.1).flatten } := by
  have hfd := firstDispatchError_none clients config config.providers hready
  simp only [runAnalysis, hinit, runPrompts_ok clients config behavior hfd]

/-- Claim C1: with every selected provider properly initialized (present
credential and model, the configuration invariant), `runAnalysis`
resolves — whatever the adapters do, including failing on every attempt —
with exactly one `AnalysisResult` per prompt in prompt input order, each
holding exactly one `ProviderResult` per selected provider in provider
selection order. -/
theorem run_returns_full_matrix (config : AppConfig) (behavior : Behavior)
    (clients : LlmClients)
    (hinit : initializeClients config = Except.ok clients)
    (hready : ∀ p ∈ config.providers,
      dispatchCheck clients config p = Except.ok ())
    (hprov : ∀ i p k r, behavior i p k = Except.ok r → r.provider = p) :
    ∃ results, (runAnalysis config behavior).result = Except.ok results ∧
      results.length = config.prompts.length ∧
      ∀ i (hi : i < results.length) (hip : i < config.prompts.length),
        results[i].prompt = config.prompts[i] ∧
        results[i].providerResponses.length = config.providers.length ∧
        ∀ j (hj : j < results[i].providerResponses.length)
          (hjp : j < config.providers.length),
          (results[i].providerResponses[j]).provider =
            config.providers[j] := by
  refine ⟨config.prompts.enum.map (fun ip =>
      { prompt := ip.2
        providerResponses := config.providers.map (unitResult behavior ip.1) }), ?_, ?_, ?_⟩
  · rw [runAnalysis_ok config behavior clients hinit hready]
  · simp [List.enum_length]
  · intro i hi hip
    refine ⟨?_, ?_, ?_⟩
    · simp [List.getElem_map, List.getElem_enum]
    · simp [List.getElem_map, List.getElem_enum]
    · intro j hj hjp
      simp only [List.getElem_map, List.getElem_enum]
      exact unitResult_provider behavior i _ (fun k r h => hprov i _ k r h)

theorem run_returns_full_matrix_witness :
    (initializeClients cfgFull = Except.ok
      { gemini := some "gk", openai := some "ok", perplexity := some "pk" }) ∧
    ∃ results, (runAnalysis cfgFull behaviorFail).result = Except.ok results ∧
      results.length = cfgFull.prompts.length ∧
      ∀ i (hi : i < results.length) (hip : i < cfgFull.prompts.length),
        results[i].prompt = cfgFull.prompts[i] ∧
        results[i].providerResponses.length = cfgFull.providers.length ∧
        ∀ j (hj : j < results[i].providerResponses.length)
          (hjp : j < cfgFull.providers.length),
          (results[i].providerResponses[j]).provider = cfgFull.providers[j] :=
  ⟨by decide,
   run_returns_full_matrix cfgFull behaviorFail
     { gemini := some "gk", openai := some "ok", perplexity := some "pk" }
     (by decide) (by decide)
     (fun i p k r h => by simp [behaviorFail] at h)⟩

theorem initializeClients_error (config : AppConfig) (e : JsError)
    (h : initializeClients config = Except.error e) :
    e = JsError.plain "Google Gemini API Key is missing." := by
  rw [initializeClients] at h
  by_cases h1 : Provider.gemini ∈ config.providers
  · by_cases h2 : optTruthy config.apiKeys.gemini = true
    · simp [h1, h2] at h
    · simp [h1, h2] at h
      exact h.symm
  · simp [h1] at h

theorem dispatchCheck_error_msg (clients : LlmClients) (config : AppConfig)
    (q : Provider) (e : JsError)
    (h : dispatchCheck clients config q = Except.error e) :
    isConfigurationError e = true := by
  cases q <;> simp only [dispatchCheck] at h <;> split at h <;>
    (try cases h) <;> decide

theorem firstDispatchError_msg (clients : LlmClients) (config : AppConfig) :
    ∀ (ps : List Provider) (e : JsError),
      firstDispatchError clients config ps = some e →
      isConfigurationError e = true := by
  intro ps
  induction ps with
  | nil => intro e h; cases h
  | cons q rest ih =>
      intro e h
      cases hd : dispatchCheck clients config q with
      | error e' =>
          rw [firstDispatchError, hd] at h
          injection h with he
          subst he
          exact dispatchCheck_error_msg clients config q _ hd
      | ok u =>
          rw [firstDispatchError, hd] at h
          exact ih e h

theorem runPrompts_error_msg (clients : LlmClients) (config : AppConfig)
    (behavior : Behavior) :
    ∀ (l : List (Nat × String)) (e : JsError),
      (runPrompts clients config behavior l).1 = Except.error e →
      isConfigurationError e = true := by
  intro l
  induction l with
  | nil => intro e h; cases h
  | cons ip rest ih =>
      intro e h
      cases hfd : firstDispatchError clients config config.providers with
      | some e' =>
          have h2 : e' = e := by
            simpa [runPrompts, processPrompt, hfd] using h
          subst h2
          exact firstDispatchError_msg clients config config.providers _ hfd
      | none =>
          rw [runPrompts, processPrompt_ok clients config behavior ip.1 hfd] at h
          cases htail : (runPrompts clients config behavior rest).1 with
          | error e' =>
              have h2 : e' = e := by simpa [htail] using h
              subst h2
              exact ih _ htail
          | ok results => simp [htail] at h

/-- Claim C6: an adapter that still fails after the retry engine settles
does not reject the run; its slot in the result matrix is a synthesized
`ProviderResult` with empty response and lists, `error` holding the
exception message and `rawResponse` the serialized exception dump — and
the run as a whole can only reject with a configuration error (missing
credential or model). -/
theorem adapter_failure_isolated (config : AppConfig) (behavior : Behavior) :
    (∀ clients, initializeClients config = Except.ok clients →
      (∀ p ∈ config.providers, dispatchCheck clients config p = Except.ok ()) →
      ∀ i p j e (hip : i < config.prompts.length)
        (hjp : j < config.providers.length),
        config.providers[j] = p →
        (retryWithBackoff 2 (behavior i p)).1 = Except.error e →
        ∃ results, (runAnalysis config behavior).result = Except.ok results ∧
          ∃ (hi : i < results.length)
            (hj : j < results[i].providerResponses.length),
            results[i].providerResponses[j] =
              { provider := p
                response := ""
                brandAnalyses := []
                additionalAnswers := []
                rawResponse := some (serializeError e)
                error := some e.message
                citations := none
                tokenUsage := none
                analysisTokenUsage := none }) ∧
    (∀ e, (runAnalysis config behavior).result = Except.error e →
      isConfigurationError e = true) := by
  constructor
  · intro clients hinit hready i p j e hip hjp hpj hfail
    refine ⟨config.prompts.enum.map (fun ip =>
        { prompt := ip.2
          providerResponses := config.providers.map (unitResult behavior ip.1) }),
      by rw [runAnalysis_ok config behavior clients hinit hready], ?_⟩
    have hi : i < (config.prompts.enum.map (fun ip =>
        ({ prompt := ip.2
           providerResponses := config.providers.map (unitResult behavior ip.1) }
          : AnalysisResult))).length := by
      simpa [List.enum_length] using hip
    refine ⟨hi, ?_⟩
    have hj : j < ((config.prompts.enum.map (fun ip =>
        ({ prompt := ip.2
           providerResponses := config.providers.map (unitResult behavior ip.1) }
          : AnalysisResult)))[i]).providerResponses.length := by
      simpa [List.getElem_map, List.getElem_enum] using hjp
    refine ⟨hj, ?_⟩
    simp only [List.getElem_map, List.getElem_enum]
    rw [hpj, unitResult, runUnit_fst, hfail]
    rfl
  · intro e h
    cases hinit : initializeClients config with
    | error e' =>
        have h2 : e' = e := by simpa [runAnalysis, hinit] using h
        subst h2
        rw [initializeClients_error config _ hinit]
        decide
    | ok clients =>
        have h' : (runPrompts clients config behavior config.prompts.enum).1 =
            Except.error e := by
          simpa [runAnalysis, hinit] using h
        exact runPrompts_error_msg clients config behavior config.prompts.enum e h'

theorem adapter_failure_isolated_witness :
    ((retryWithBackoff 2 (behaviorFail 0 Provider.gemini)).1 =
      Except.error (JsError.apiError "Internal Server Error" 500)) ∧
    ∃ results, (runAnalysis cfgFull behaviorFail).result = Except.ok results ∧
      ∃ (hi : 0 < results.length)
        (hj : 0 < results[0].providerResponses.length),
        results[0].providerResponses[0] =
          { provider := Provider.gemini
            response := ""
            brandAnalyses := []
            additionalAnswers := []
            rawResponse := some
              (serializeError (JsError.apiError "Internal Server Error" 500))
            error := some "Internal Server Error"
            citations := none
            tokenUsage := none
            analysisTokenUsage := none } :=
  ⟨by decide,
   (adapter_failure_isolated cfgFull behaviorFail).1
     { gemini := some "gk", openai := some "ok", perplexity := some "pk" }
     (by decide) (by decide) 0 Provider.gemini 0
     (JsError.apiError "Internal Server Error" 500)
     (by decide) (by decide) (by decide) (by decide)⟩

theorem firstDispatchError_some (clients : LlmClients) (config : AppConfig) :
    ∀ (ps : List Provider) (p : Provider), p ∈ ps →
      (dispatchCheck clients config p).isOk = false →
      ∃ e, firstDispatchError clients config ps = some e := by
  intro ps
  induction ps with
  | nil => intro p hp; cases hp
  | cons q rest ih =>
      intro p hp hnok
      cases hd : dispatchCheck clients config q with
      | error e => exact ⟨e, by rw [firstDispatchError, hd]⟩
      | ok u =>
          rcases List.mem_cons.mp hp with rfl | hp'
          · rw [hd] at hnok
            cases hnok
          · obtain ⟨e, he⟩ := ih p hp' hnok
            exact ⟨e, by rw [firstDispatchError, hd]; exact he⟩

/-- Claim C2 (amended): only a selected Gemini provider with a missing or
empty key makes `runAnalysis` reject before any work unit exists (no
snapshot emitted, no transition). For any other missing credential — and
for any missing model identifier — the run still rejects wholesale, but
only at the dispatch switch, after the initial snapshot was emitted and
the first prompt's work units were marked `in_progress`. -/
theorem missing_credential_rejection (config : AppConfig) (behavior : Behavior) :
    (Provider.gemini ∈ config.providers →
     optTruthy config.apiKeys.gemini = false →
     runAnalysis config behavior =
       { result := Except.error (JsError.plain "Google Gemini API Key is missing.")
         initialEmitted := false
         transitions := [] }) ∧
    (∀ clients p, initializeClients config = Except.ok clients →
      p ∈ config.providers →
      (dispatchCheck clients config p).isOk = false →
      config.prompts ≠ [] →
      (∃ e, (runAnalysis config behavior).result = Except.error e) ∧
      (runAnalysis config behavior).initialEmitted = true ∧
      ∃ tr ∈ (runAnalysis config behavior).transitions,
        tr.status = TaskStatus.inProgress) := by
  constructor
  · intro h1 h2
    have hinit : initializeClients config =
        Except.error (JsError.plain "Google Gemini API Key is missing.") := by
      rw [initializeClients]
      simp [h1, h2]
    simp [runAnalysis, hinit]
  · intro clients p hinit hp hnok hne
    obtain ⟨e, hfd⟩ :=
      firstDispatchError_some clients config config.providers p hp hnok
    cases hpr : config.prompts with
    | nil => exact absurd hpr hne
    | cons pr rest =>
        have henum : config.prompts.enum = (0, pr) :: List.enumFrom 1 rest := by
          rw [hpr, List.enum_cons]
        have hrun : runAnalysis config behavior =
            { result := Except.error e
              initialEmitted := true
              transitions := config.providers.map fun q =>
                { taskId := taskIdOf 0 q, status := TaskStatus.inProgress,
                  error := none, retries := none } } := by
          simp [runAnalysis, hinit, henum, runPrompts, processPrompt, hfd]
        refine ⟨⟨e, by rw [hrun]⟩, by rw [hrun], ?_⟩
        rw [hrun]
        exact ⟨{ taskId := taskIdOf 0 p, status := TaskStatus.inProgress,
                 error := none, retries := none },
               List.mem_map.mpr ⟨p, hp, rfl⟩, rfl⟩

theorem missing_credential_rejection_witness :
    (runAnalysis cfgNoGeminiKey behaviorFail =
      { result := Except.error (JsError.plain "Google Gemini API Key is missing.")
        initialEmitted := false
        transitions := [] }) ∧
    ((∃ e, (runAnalysis cfgNoOpenaiKey behaviorFail).result = Except.error e) ∧
     (runAnalysis cfgNoOpenaiKey behaviorFail).initialEmitted = true ∧
     ∃ tr ∈ (runAnalysis cfgNoOpenaiKey behaviorFail).transitions,
       tr.status = TaskStatus.inProgress) :=
  ⟨(missing_credential_rejection cfgNoGeminiKey behaviorFail).1
     (by decide) (by decide),
   (missing_credential_rejection cfgNoOpenaiKey behaviorFail).2
     { gemini := none, openai := none, perplexity := none } Provider.openai
     (by decide) (by decide) (by decide) (by decide)⟩

/-- Claim C2 (counterexample): with OpenAI selected and its key absent,
`runAnalysis` rejects — but only after emitting the initial snapshot and
marking the OpenAI work unit `in_progress`, so the run does NOT reject
"before any WorkUnit transitions to in_progress" and the emitted tracker
state is not all-pending. -/
theorem missing_credential_counterexample :
    optTruthy cfgNoOpenaiKey.apiKeys.openai = false ∧
    Provider.openai ∈ cfgNoOpenaiKey.providers ∧
    runAnalysis cfgNoOpenaiKey behaviorFail =
      { result :=
          Except.error (JsError.plain "OpenAI client not initialized properly.")
        initialEmitted := true
        transitions := [{ taskId := "prompt-0-openai"
                          status := TaskStatus.inProgress
                          error := none
                          retries := none }] } := by
  decide

theorem runUnit_snd (outcomes : Nat → Except Thrown ProviderResponse)
    (p : Provider) (tid : String) :
    (runUnit outcomes p tid).2 =
      ((retryWithBackoff 2 outcomes).2.filterMap fun ev =>
        match ev with
        | REvent.onRetry _ attempt =>
            some { taskId := tid, status := TaskStatus.inProgress,
                   error := none, retries := some attempt }
        | REvent.wait _ => none) ++
      [(match (retryWithBackoff 2 outcomes).1 with
        | Except.ok resp =>
            if optTruthy resp.error then
              ({ taskId := tid, status := TaskStatus.error, error := resp.error,
                 retries := none } : Transition)
            else
              { taskId := tid, status := TaskStatus.completed, error := none,
                retries := none }
        | Except.error e =>
            { taskId := tid, status := TaskStatus.error,
              error := some e.message, retries := none })] := by
  rw [runUnit]
  cases (retryWithBackoff 2 outcomes).1 with
  | ok resp => by_cases he : optTruthy resp.error = true <;> simp [he]
  | error e => rfl

theorem runUnit_log_tid (outcomes : Nat → Except Thrown ProviderResponse)
    (p : Provider) (tid : String) :
    ∀ tr ∈ (runUnit outcomes p tid).2, tr.taskId = tid := by
  intro tr htr
  rw [runUnit_snd] at htr
  rcases List.mem_append.mp htr with hl | hr
  · obtain ⟨ev, _, hsome⟩ := List.mem_filterMap.mp hl
    cases ev with
    | onRetry e a =>
        injection hsome with h
        rw [← h]
    | wait ms => cases hsome
  · rw [List.mem_singleton] at hr
    subst hr
    cases (retryWithBackoff 2 outcomes).1 with
    | ok resp => by_cases he : optTruthy resp.error = true <;> simp [he]
    | error e => rfl

theorem retry_filterMap_statuses (tid : String) (l : List REvent) :
    ∃ n, (l.filterMap fun ev =>
      match ev with
      | REvent.onRetry _ attempt =>
          some ({ taskId := tid, status := TaskStatus.inProgress,
                  error := none, retries := some attempt } : Transition)
      | REvent.wait _ => none).map Transition.status =
      List.replicate n TaskStatus.inProgress := by
  induction l with
  | nil => exact ⟨0, rfl⟩
  | cons ev rest ih =>
      obtain ⟨n, hn⟩ := ih
      cases ev with
      | onRetry e a =>
          exact ⟨n + 1, by simp [List.filterMap_cons, hn, List.replicate_succ]⟩
      | wait ms => exact ⟨n, by simpa [List.filterMap_cons] using hn⟩

theorem runUnit_log_statuses (outcomes : Nat → Except Thrown ProviderResponse)
    (p : Provider) (tid : String) :
    ∃ m t, (t = TaskStatus.completed ∨ t = TaskStatus.error) ∧
      (runUnit outcomes p tid).2.map Transition.status =
        List.replicate m TaskStatus.inProgress ++ [t] := by
  obtain ⟨n, hn⟩ := retry_filterMap_statuses tid (retryWithBackoff 2 outcomes).2
  rw [runUnit_snd, List.map_append, hn]
  cases hres : (retryWithBackoff 2 outcomes).1 with
  | ok resp =>
      by_cases he : optTruthy resp.error = true
      · exact ⟨n, TaskStatus.error, Or.inr rfl, by simp [hres, he]⟩
      · exact ⟨n, TaskStatus.completed, Or.inl rfl, by simp [hres, he]⟩
  | error e => exact ⟨n, TaskStatus.error, Or.inr rfl, by simp [hres]⟩

theorem filter_tid_nil {l : List Transition} {tid : String}
    (h : ∀ tr ∈ l, tr.taskId ≠ tid) :
    l.filter (fun tr => tr.taskId == tid) = [] := by
  rw [List.filter_eq_nil_iff]
  intro tr htr
  simp [h tr htr]

theorem filter_tid_all {l : List Transition} {tid : String}
    (h : ∀ tr ∈ l, tr.taskId = tid) :
    l.filter (fun tr => tr.taskId == tid) = l := by
  rw [List.filter_eq_self]
  intro tr htr
  simp [h tr htr]

theorem lifecycleOk_all_inProgress (σ : List TaskStatus)
    (h : ∀ s ∈ σ, s = TaskStatus.inProgress) : lifecycleOk σ :=
  ⟨σ.length, Or.inl (List.eq_replicate_iff.mpr ⟨rfl, h⟩)⟩

theorem promptLog_tids (config : AppConfig) (behavior : Behavior) (i : Nat) :
    ∀ tr ∈ promptLog config behavior i,
      tr.taskId ∈ config.providers.map (taskIdOf i) := by
  intro tr htr
  simp only [promptLog, promptPrologue] at htr
  rcases List.mem_append.mp htr with hl | hr
  · obtain ⟨p, hp, rfl⟩ := List.mem_map.mp hl
    exact List.mem_map.mpr ⟨p, hp, rfl⟩
  · obtain ⟨l, hlmem, htrl⟩ := List.mem_flatten.mp hr
    obtain ⟨p, hp, rfl⟩ := List.mem_map.mp hlmem
    rw [runUnit_log_tid (behavior i p) p (taskIdOf i p) tr htrl]
    exact List.mem_map.mpr ⟨p, hp, rfl⟩

theorem runPrompts_log_tids (clients : LlmClients) (config : AppConfig)
    (behavior : Behavior) :
    ∀ l, ∀ tr ∈ (runPrompts clients config behavior l).2,
      tr.taskId ∈ idsOf config l := by
  intro l
  induction l with
  | nil => intro tr htr; cases htr
  | cons ip rest ih =>
      intro tr htr
      have hmem : tr.taskId ∈ config.providers.map (taskIdOf ip.1) ∨
          tr.taskId ∈ idsOf config rest := by
        cases hfd : firstDispatchError clients config config.providers with
        | some e =>
            have hlog : (runPrompts clients config behavior (ip :: rest)).2 =
                config.providers.map fun q =>
                  ({ taskId := taskIdOf ip.1 q,
                     status := TaskStatus.inProgress, error := none,
                     retries := none } : Transition) := by
              simp [runPrompts, processPrompt, hfd]
            rw [hlog] at htr
            left
            obtain ⟨p, hp, rfl⟩ := List.mem_map.mp htr
            exact List.mem_map.mpr ⟨p, hp, rfl⟩
        | none =>
            have hlog : (runPrompts clients config behavior (ip :: rest)).2 =
                promptLog config behavior ip.1 ++
                  (runPrompts clients config behavior rest).2 := by
              cases htail : (runPrompts clients config behavior rest).1 <;>
                simp [runPrompts,
                  processPrompt_ok clients config behavior ip.1 hfd, htail]
            rw [hlog] at htr
            rcases List.mem_append.mp htr with hl | hr
            · exact Or.inl (promptLog_tids config behavior ip.1 tr hl)
            · exact Or.inr (ih tr hr)
      rw [idsOf, List.flatMap_cons]
      exact List.mem_append.mpr hmem

theorem prompt_parts_filter (behavior : Behavior) (i : Nat) (tid : String) :
    ∀ (ps : List Provider) (p : Provider), p ∈ ps → taskIdOf i p = tid →
      (ps.map (taskIdOf i)).Nodup →
      ((ps.map fun q => ({ taskId := taskIdOf i q,
                           status := TaskStatus.inProgress, error := none,
                           retries := none } : Transition)).filter
            (fun tr => tr.taskId == tid) =
        [({ taskId := tid, status := TaskStatus.inProgress, error := none,
            retries := none } : Transition)]) ∧
      ((ps.map (unitLog behavior i)).flatten.filter
          (fun tr => tr.taskId == tid) = unitLog behavior i p) := by
  intro ps
  induction ps with
  | nil => intro p hp; cases hp
  | cons q rest ih =>
      intro p hp htid hnd
      rw [List.map_cons, List.nodup_cons] at hnd
      obtain ⟨hqnotin, hndrest⟩ := hnd
      rcases List.mem_cons.mp hp with rfl | hp'
      · have hrestne : ∀ x ∈ rest, taskIdOf i x ≠ tid := by
          intro x hx heq
          exact hqnotin (List.mem_map.mpr ⟨x, hx, heq.trans htid.symm⟩)
        constructor
        · rw [List.map_cons, List.filter_cons]
          have hhead : (({ taskId := taskIdOf i p,
                           status := TaskStatus.inProgress, error := none,
                           retries := none } : Transition).taskId == tid) = true := by
            simp [htid]
          rw [hhead, if_pos rfl]
          have hrest0 : ((rest.map fun x => ({ taskId := taskIdOf i x,
                                               status := TaskStatus.inProgress,
                                               error := none,
                                               retries := none } : Transition)).filter
                (fun tr => tr.taskId == tid)) = [] := by
            apply filter_tid_nil
            intro tr htr
            obtain ⟨x, hx, rfl⟩ := List.mem_map.mp htr
            exact hrestne x hx
          rw [hrest0, htid]
        · rw [List.map_cons, List.flatten_cons, List.filter_append]
          have h1 : (unitLog behavior i p).filter
              (fun tr => tr.taskId == tid) = unitLog behavior i p :=
            filter_tid_all fun tr htr =>
              (runUnit_log_tid (behavior i p) p (taskIdOf i p) tr htr).trans htid
          have h2 : ((rest.map (unitLog behavior i)).flatten.filter
              (fun tr => tr.taskId == tid)) = [] := by
            apply filter_tid_nil
            intro tr htr
            obtain ⟨l, hl, htrl⟩ := List.mem_flatten.mp htr
            obtain ⟨x, hx, rfl⟩ := List.mem_map.mp hl
            rw [runUnit_log_tid (behavior i x) x (taskIdOf i x) tr htrl]
            exact hrestne x hx
          rw [h1, h2, List.append_nil]
      · have hqne : taskIdOf i q ≠ tid := by
          intro heq
          exact hqnotin (List.mem_map.mpr ⟨p, hp', htid.trans heq.symm⟩)
        obtain ⟨ihA, ihB⟩ := ih p hp' htid hndrest
        constructor
        · rw [List.map_cons, List.filter_cons]
          have hhead : (({ taskId := taskIdOf i q,
                           status := TaskStatus.inProgress, error := none,
                           retries := none } : Transition).taskId == tid) = false := by
            simp [hqne]
          rw [hhead, if_neg (by simp)]
          exact ihA
        · rw [List.map_cons, List.flatten_cons, List.filter_append]
          have h2 : ((unitLog behavior i q).filter
              (fun tr => tr.taskId == tid)) = [] := by
            apply filter_tid_nil
            intro tr htr
            rw [runUnit_log_tid (behavior i q) q (taskIdOf i q) tr htr]
            exact hqne
          rw [h2, List.nil_append]
          exact ihB

theorem runPrompts_lifecycle (clients : LlmClients) (config : AppConfig)
    (behavior : Behavior) (tid : String) :
    ∀ l, (idsOf config l).Nodup →
      lifecycleOk (((runPrompts clients config behavior l).2.filter
        (fun tr => tr.taskId == tid)).map Transition.status) := by
  intro l
  induction l with
  | nil => intro _; exact ⟨0, Or.inl rfl⟩
  | cons ip rest ih =>
      intro hnd
      rw [idsOf, List.flatMap_cons, List.nodup_append] at hnd
      obtain ⟨hndA, hndRest, hdisj⟩ := hnd
      cases hfd : firstDispatchError clients config config.providers with
      | some e =>
          have hlog : (runPrompts clients config behavior (ip :: rest)).2 =
              config.providers.map fun q =>
                ({ taskId := taskIdOf ip.1 q, status := TaskStatus.inProgress,
                   error := none, retries := none } : Transition) := by
            simp [runPrompts, processPrompt, hfd]
          rw [hlog]
          apply lifecycleOk_all_inProgress
          intro s hs
          obtain ⟨tr, htr, rfl⟩ := List.mem_map.mp hs
          have htr' := (List.mem_filter.mp htr).1
          obtain ⟨q, hq, rfl⟩ := List.mem_map.mp htr'
          rfl
      | none =>
          have hlog : (runPrompts clients config behavior (ip :: rest)).2 =
              promptLog config behavior ip.1 ++
                (runPrompts clients config behavior rest).2 := by
            cases htail : (runPrompts clients config behavior rest).1 <;>
              simp [runPrompts,
                processPrompt_ok clients config behavior ip.1 hfd, htail]
          rw [hlog, List.filter_append, List.map_append]
          by_cases htid : tid ∈ config.providers.map (taskIdOf ip.1)
          · have htail0 : ((runPrompts clients config behavior rest).2.filter
                (fun tr => tr.taskId == tid)) = [] := by
              apply filter_tid_nil
              intro tr htr heq
              have hmem := runPrompts_log_tids clients config behavior rest tr htr
              rw [heq] at hmem
              exact hdisj htid hmem
            rw [htail0]
            simp only [List.map_nil, List.append_nil]
            obtain ⟨p, hpmem, hpid⟩ := List.mem_map.mp htid
            obtain ⟨hA, hB⟩ := prompt_parts_filter behavior ip.1 tid
              config.providers p hpmem hpid hndA
            have hplog : (promptLog config behavior ip.1).filter
                (fun tr => tr.taskId == tid) =
                ({ taskId := tid, status := TaskStatus.inProgress,
                   error := none, retries := none } : Transition) ::
                  unitLog behavior ip.1 p := by
              simp only [promptLog, promptPrologue, List.filter_append]
              rw [hA, hB, List.singleton_append]
            rw [hplog, List.map_cons]
            obtain ⟨m, t, ht, hst⟩ :=
              runUnit_log_statuses (behavior ip.1 p) p (taskIdOf ip.1 p)
            have hst' : (unitLog behavior ip.1 p).map Transition.status =
                List.replicate m TaskStatus.inProgress ++ [t] := hst
            rw [hst']
            refine ⟨m + 1, Or.inr ⟨by omega, ?_⟩⟩
            rcases ht with rfl | rfl
            · left
              rw [List.replicate_succ, List.cons_append]
            · right
              rw [List.replicate_succ, List.cons_append]
          · have hplog0 : ((promptLog config behavior ip.1).filter
                (fun tr => tr.taskId == tid)) = [] := by
              apply filter_tid_nil
              intro tr htr heq
              exact htid (heq ▸ promptLog_tids config behavior ip.1 tr htr)
            rw [hplog0]
            simp only [List.map_nil, List.nil_append]
            exact ih hndRest

/-- Claim C9: every work unit's emitted status sequence follows the
lifecycle `pending → in_progress → {completed | error}`: within a run
whose generated work-unit identifiers are distinct (providers form a
set), a unit is marked `in_progress` one or more times (re-entries being
retries), never regresses, and once `completed` or `error` is emitted
nothing follows for that unit. -/
theorem workunit_lifecycle (config : AppConfig) (behavior : Behavior)
    (tid : String) (hids : (allTaskIds config).Nodup) :
    lifecycleOk (((runAnalysis config behavior).transitions.filter
      (fun tr => tr.taskId == tid)).map Transition.status) := by
  cases hinit : initializeClients config with
  | error e =>
      have h0 : (runAnalysis config behavior).transitions = [] := by
        simp [runAnalysis, hinit]
      rw [h0]
      exact ⟨0, Or.inl rfl⟩
  | ok clients =>
      have h0 : (runAnalysis config behavior).transitions =
          (runPrompts clients config behavior config.prompts.enum).2 := by
        simp [runAnalysis, hinit]
      rw [h0]
      exact runPrompts_lifecycle clients config behavior tid
        config.prompts.enum hids

theorem workunit_lifecycle_witness :
    (allTaskIds cfgFull).Nodup ∧
    lifecycleOk (((runAnalysis cfgFull behaviorFail).transitions.filter
      (fun tr => tr.taskId == "prompt-0-gemini")).map Transition.status) :=
  ⟨by decide,
   workunit_lifecycle cfgFull behaviorFail "prompt-0-gemini" (by decide)⟩
